import Mathlib

/-!
Verification of the conversational tool-calling orchestration engine of the
`agentai` crate against its natural-language specification.

The development shallowly embeds the relevant Rust code:

* `src/agent.rs` — `Agent::run`, the request/response/tool-dispatch loop;
* `src/tool/multi_tool.rs` — `MergeTool`, the aggregating tool registry;
* `src/tool/mod.rs` — the `ToolBox` trait and `ToolError` enum.

Rust strings are modelled as `List Char`; fallible code returns `Except`;
a Rust panic (`todo!`, `.expect`) is modelled as a dedicated `panicked` /
`RunError.panic` outcome, distinct from ordinary returned errors.  The chat
transport (`genai`'s `Client::exec_chat`) is a collaborator and is modelled
as an arbitrary function from the outbound request to a response; the list
of outbound requests actually handed to the transport is recorded in the
run result so that request-count properties can be stated.
-/

/-- Rust `String` / `&str`, modelled as its character sequence. -/
abbrev Str := List Char

/-- `serde_json::Value`.  Numbers are collapsed to `Int`; none of the code
under scrutiny inspects numeric payloads. -/
inductive Json where
  | null
  | bool (b : Bool)
  | num (n : Int)
  | str (s : Str)
  | arr (elems : List Json)
  | obj (fields : List (Str × Json))

/-- `genai::chat::ToolCall`: one tool-call request emitted by the model. -/
structure ToolCall where
  call_id : Str
  fn_name : Str
  fn_arguments : Json

/-- `genai::chat::ChatMessage`, restricted to the constructors the agent
actually produces: `ChatMessage::system/user/assistant`, the
`From<Vec<ToolCall>>` conversion, and the `From<ToolResponse>` conversion. -/
inductive ChatMessage where
  | system (content : Str)
  | user (content : Str)
  | assistant (content : Str)
  | toolCalls (calls : List ToolCall)
  | toolResponse (call_id : Str) (content : Str)

/-- `genai::chat::MessageContent` as consumed by `Agent::run`: the `Text`
and `ToolCalls` arms are handled, every other variant falls into the
catch-all `msg_content =>` arm (`other` here). -/
inductive MessageContent where
  | text (s : Str)
  | toolCalls (calls : List ToolCall)
  | other

/-- The part of `genai::chat::ChatResponse` read by `Agent::run`. -/
structure ChatResponse where
  reasoning_content : Option Str
  content : List MessageContent

/-- `genai::chat::Tool`: a tool descriptor exposed to the model. -/
structure ToolDef where
  name : Str
  description : Option Str
  schema : Option Json

/-- `agentai::tool::ToolError` (src/tool/mod.rs). -/
inductive ToolError where
  | toolsDefinitionNotReady
  | noToolFound (name : Str)
  | executionError
  | other (msg : Str)

/-- `Display` for `ToolError` as produced by the `thiserror` attributes in
src/tool/mod.rs; this is the text `err.to_string()` yields in `Agent::run`. -/
def ToolError.toMessage : ToolError → Str
  | .toolsDefinitionNotReady => "Tool definitions are not ready".data
  | .noToolFound name => "Tool named \x27".data ++ name ++ "\x27 not found".data
  | .executionError => "Tool execution failed".data
  | .other msg => msg

/-- Result of invoking `ToolBox::call_tool`.  `ok`/`err` are the two arms of
the Rust `Result<String, ToolError>`; `panicked` records that the call
panicked (e.g. `MergeTool`'s `.expect("tool-index")`), which in Rust unwinds
through the caller instead of being returned. -/
inductive CallOutcome where
  | ok (s : Str)
  | err (e : ToolError)
  | panicked (msg : Str)

/-- A `dyn ToolBox` (src/tool/mod.rs): a descriptor list and a call-by-name
dispatcher.  `tools_definitions` is effect-free in the trait, so it is a
fixed `Except` value; `call_tool` is a function of the name and arguments. -/
structure ToolBoxM where
  tools_definitions : Except ToolError (List ToolDef)
  call_tool : Str → Json → CallOutcome

/- ===================== string helpers (Rust std semantics) ============= -/

/-- Rust `str::split_once(sep)` for a one-character pattern: split at the
first occurrence of `sep`, `none` when `sep` does not occur. -/
def splitOnce (sep : Char) : Str → Option (Str × Str)
  | [] => none
  | c :: rest =>
    if c = sep then some ([], rest)
    else (splitOnce sep rest).map (fun p => (c :: p.1, p.2))

/-- Rust `str::split(sep)` for a one-character pattern: all pieces between
occurrences of `sep`, keeping empty pieces (`"".split('-')` is `[""]`). -/
def splitAll (sep : Char) : Str → List Str
  | [] => [[]]
  | c :: rest =>
    if c = sep then [] :: splitAll sep rest
    else
      match splitAll sep rest with
      | [] => [[c]]
      | h :: t => (c :: h) :: t

/-- The decimal digit character for `n < 10`, as in Rust's `Display` for
unsigned integers. -/
def decDigitChar (n : Nat) : Char := Char.ofNat (48 + n)

/-- Decimal rendering of a `usize`, as produced by `format!("{}", n)`. -/
def natDecimal (n : Nat) : Str :=
  if _h : n < 10 then [decDigitChar n]
  else natDecimal (n / 10) ++ [decDigitChar (n % 10)]
  decreasing_by exact Nat.div_lt_self (by omega) (by omega)

/-- Digit-accumulating core of Rust `str::parse::<usize>`: consumes decimal
digits, failing on any non-digit character. -/
def decValAux (acc : Nat) : Str → Option Nat
  | [] => some acc
  | c :: rest =>
    if 48 ≤ c.toNat ∧ c.toNat ≤ 57 then decValAux (acc * 10 + (c.toNat - 48)) rest
    else none

/-- Rust `str::parse::<usize>()`: an optional leading `+`, then at least one
decimal digit and nothing else.  (A value exceeding `usize::MAX` makes the
Rust parse fail with an overflow error; `MergeTool::call_tool` maps every
parse failure to `NoToolFound`, and an overflowing ordinal is also out of
range of any provider list, so collapsing overflow into the in-range check
does not change any observable outcome of the code modelled here.) -/
def parseUsize (s : Str) : Option Nat :=
  match s with
  | [] => none
  | c :: rest =>
    if c = '+' then (if rest = [] then none else decValAux 0 rest)
    else decValAux 0 (c :: rest)

/- ===================== MergeTool (src/tool/multi_tool.rs) ============== -/

/-- The public name `MergeTool::tools_definitions` gives the tool of
provider `index` with local name `name`:  `format!("tool-{}_{}", index, name)`. -/
def mergedName (index : Nat) (name : Str) : Str :=
  "tool-".data ++ natDecimal index ++ '_' :: name

/-- The descriptor rewrite done inside `MergeTool::tools_definitions`:
`tool.name = format!("tool-{}_{}", index, tool.name)`. -/
def renameTool (index : Nat) (t : ToolDef) : ToolDef :=
  { t with name := mergedName index t.name }

/-- The `enumerate().map(..).collect::<Result<Vec<_>, _>>()` stage of
`MergeTool::tools_definitions`: per provider (starting at ordinal `index`),
its descriptor list with every name rewritten; the first provider error
short-circuits. -/
def collectDefs (index : Nat) : List ToolBoxM → Except ToolError (List (List ToolDef))
  | [] => .ok []
  | tb :: rest =>
    match tb.tools_definitions with
    | .error e => .error e
    | .ok defs =>
      match collectDefs (index + 1) rest with
      | .error e => .error e
      | .ok ls => .ok (defs.map (renameTool index) :: ls)

/-- `MergeTool::tools_definitions`: collect all per-provider renamed
descriptor lists, then flatten. -/
def mergeToolsDefinitions (tools : List ToolBoxM) : Except ToolError (List ToolDef) :=
  match collectDefs 0 tools with
  | .error e => .error e
  | .ok ls => .ok ls.flatten

/-- `MergeTool::call_tool`: split the public name on the first `_`, take the
second `-`-separated piece of the part before it (panicking via
`.expect("tool-index")` when there is none), parse it as the provider
ordinal (any parse failure is `NoToolFound`), reject out-of-range ordinals
as `NoToolFound`, and otherwise forward the remaining local name and the
unmodified arguments to the selected provider. -/
def mergeCallTool (tools : List ToolBoxM) (tool_name : Str) (arguments : Json) : CallOutcome :=
  match splitOnce '_' tool_name with
  | some (indexPart, original_tool_name) =>
    match (splitAll '-' indexPart).get? 1 with
    | none => .panicked "tool-index".data
    | some indexStr =>
      match parseUsize indexStr with
      | none => .err (.noToolFound tool_name)
      | some tool_index =>
        if h : tool_index < tools.length then
          (tools.get ⟨tool_index, h⟩).call_tool original_tool_name arguments
        else .err (.noToolFound tool_name)
  | none => .err (.noToolFound tool_name)

/-- `MergeTool` packaged as a `ToolBox` (its trait implementation). -/
def mergeToolBox (tools : List ToolBoxM) : ToolBoxM :=
  { tools_definitions := mergeToolsDefinitions tools
    call_tool := mergeCallTool tools }

/- ===================== arithmetic/string lemmas ======================== -/

theorem toNat_decDigitChar {n : Nat} (h : n < 10) : (decDigitChar n).toNat = 48 + n := by
  interval_cases n <;> rfl

theorem natDecimal_digits {n : Nat} : ∀ c ∈ natDecimal n, 48 ≤ c.toNat ∧ c.toNat ≤ 57 := by
  induction n using natDecimal.induct with
  | case1 n h =>
    intro c hc
    rw [natDecimal, dif_pos h] at hc
    rcases List.mem_singleton.mp hc with rfl
    rw [toNat_decDigitChar h]
    omega
  | case2 n h ih =>
    intro c hc
    rw [natDecimal, dif_neg h] at hc
    rcases List.mem_append.mp hc with hc | hc
    · exact ih c hc
    · rcases List.mem_singleton.mp hc with rfl
      rw [toNat_decDigitChar (Nat.mod_lt n (by omega))]
      have := Nat.mod_lt n (show 0 < 10 by omega)
      omega

theorem natDecimal_ne_nil {n : Nat} : natDecimal n ≠ [] := by
  rw [natDecimal]
  split
  · simp
  · simp

theorem underscore_not_mem_natDecimal {n : Nat} : '_' ∉ natDecimal n := by
  intro h
  have h2 := natDecimal_digits _ h
  rw [show ('_' : Char).toNat = 95 by decide] at h2
  omega

theorem dash_not_mem_natDecimal {n : Nat} : '-' ∉ natDecimal n := by
  intro h
  have h2 := natDecimal_digits _ h
  rw [show ('-' : Char).toNat = 45 by decide] at h2
  omega

theorem decValAux_append (a : Str) : ∀ (acc : Nat) (b : Str),
    decValAux acc (a ++ b) =
      match decValAux acc a with
      | none => none
      | some acc2 => decValAux acc2 b := by
  induction a with
  | nil => intro acc b; rfl
  | cons c rest ih =>
    intro acc b
    simp only [List.cons_append, decValAux]
    split
    · exact ih _ b
    · rfl

theorem decValAux_natDecimal (n : Nat) : ∀ acc : Nat,
    decValAux acc (natDecimal n) = some (acc * 10 ^ (natDecimal n).length + n) := by
  induction n using natDecimal.induct with
  | case1 n h =>
    intro acc
    rw [natDecimal, dif_pos h]
    simp only [decValAux, toNat_decDigitChar h, List.length_singleton]
    rw [if_pos (by omega)]
    congr 1
    rw [pow_one]
    omega
  | case2 n h ih =>
    intro acc
    rw [natDecimal, dif_neg h]
    rw [decValAux_append]
    rw [ih acc]
    have hm : n % 10 < 10 := Nat.mod_lt n (by omega)
    simp only [decValAux, toNat_decDigitChar hm, List.length_append, List.length_singleton]
    rw [if_pos (by omega)]
    congr 1
    have hd := Nat.div_add_mod n 10
    have hp : (10 : Nat) ^ ((natDecimal (n / 10)).length + 1) =
        10 ^ (natDecimal (n / 10)).length * 10 := pow_succ 10 _
    rw [hp]
    generalize (10 : Nat) ^ (natDecimal (n / 10)).length = K
    calc (acc * K + n / 10) * 10 + (48 + n % 10 - 48)
        = acc * (K * 10) + (10 * (n / 10) + n % 10) := by ring_nf; omega
      _ = acc * (K * 10) + n := by rw [hd]

theorem parseUsize_natDecimal (n : Nat) : parseUsize (natDecimal n) = some n := by
  rcases hd : natDecimal n with _ | ⟨c, t⟩
  · exact absurd hd natDecimal_ne_nil
  · have hmem : c ∈ natDecimal n := by rw [hd]; exact List.mem_cons_self c t
    have hdig := natDecimal_digits c hmem
    have hne : ¬(c = '+') := by
      intro hc
      rw [hc, show ('+' : Char).toNat = 43 by decide] at hdig
      omega
    rw [parseUsize]
    rw [if_neg hne]
    have := decValAux_natDecimal n 0
    rw [hd] at this
    simpa using this

theorem splitOnce_no_sep {sep : Char} {a : Str} (h : sep ∉ a) (b : Str) :
    splitOnce sep (a ++ sep :: b) = some (a, b) := by
  induction a with
  | nil =>
    show (if sep = sep then some (([] : Str), b) else _) = _
    rw [if_pos rfl]
  | cons c rest ih =>
    have hc : ¬(c = sep) := fun hc => h (hc ▸ List.mem_cons_self c rest)
    have hrest : sep ∉ rest := fun hr => h (List.mem_cons_of_mem c hr)
    show (if c = sep then some (([] : Str), rest ++ sep :: b)
          else (splitOnce sep (rest ++ sep :: b)).map (fun p => (c :: p.1, p.2)))
        = some (c :: rest, b)
    rw [if_neg hc, ih hrest]
    rfl

theorem splitAll_no_sep {sep : Char} : ∀ {d : Str}, sep ∉ d → splitAll sep d = [d] := by
  intro d
  induction d with
  | nil => intro _; rfl
  | cons c rest ih =>
    intro h
    have hc : ¬(c = sep) := fun hc => h (hc ▸ List.mem_cons_self c rest)
    have hrest : sep ∉ rest := fun hr => h (List.mem_cons_of_mem c hr)
    rw [splitAll, if_neg hc, ih hrest]

theorem splitAll_tool_dash (d : Str) :
    splitAll '-' ("tool-".data ++ d) = "tool".data :: splitAll '-' d := rfl

theorem append_sep_inj {sep : Char} : ∀ {a1 a2 b1 b2 : Str}, sep ∉ a1 → sep ∉ a2 →
    a1 ++ sep :: b1 = a2 ++ sep :: b2 → a1 = a2 ∧ b1 = b2 := by
  intro a1
  induction a1 with
  | nil =>
    intro a2 b1 b2 _ h2 heq
    cases a2 with
    | nil => simpa using heq
    | cons c t =>
      simp only [List.nil_append, List.cons_append, List.cons.injEq] at heq
      exact absurd (heq.1 ▸ List.mem_cons_self c t) h2
  | cons c t ih =>
    intro a2 b1 b2 h1 h2 heq
    cases a2 with
    | nil =>
      simp only [List.cons_append, List.nil_append, List.cons.injEq] at heq
      exact absurd (heq.1.symm ▸ List.mem_cons_self c t) h1
    | cons c2 t2 =>
      simp only [List.cons_append, List.cons.injEq] at heq
      have ht : t = t2 ∧ b1 = b2 :=
        ih (fun hm => h1 (List.mem_cons_of_mem c hm))
           (fun hm => h2 (List.mem_cons_of_mem c2 hm)) heq.2
      exact ⟨by rw [heq.1, ht.1], ht.2⟩

theorem natDecimal_inj {m n : Nat} (h : natDecimal m = natDecimal n) : m = n := by
  have hm := decValAux_natDecimal m 0
  rw [h, decValAux_natDecimal n 0] at hm
  simpa using hm.symm

theorem mergedName_inj {i j : Nat} {a b : Str} (h : mergedName i a = mergedName j b) :
    i = j ∧ a = b := by
  unfold mergedName at h
  have h2 := @List.append_cancel_left Char ("tool-".data)
    (natDecimal i ++ '_' :: a) (natDecimal j ++ '_' :: b) h
  have h3 := append_sep_inj underscore_not_mem_natDecimal underscore_not_mem_natDecimal h2
  exact ⟨natDecimal_inj h3.1, h3.2⟩

/- ===================== MergeTool structure lemmas ====================== -/

theorem collectDefs_get {tools : List ToolBoxM} : ∀ {k : Nat} {ls : List (List ToolDef)},
    collectDefs k tools = .ok ls → ∀ (i : Nat) (hi : i < tools.length),
    ∃ defsi, (tools.get ⟨i, hi⟩).tools_definitions = .ok defsi ∧
      defsi.map (renameTool (k + i)) ∈ ls := by
  induction tools with
  | nil =>
    intro k ls _ i hi
    exact absurd hi (by simp)
  | cons tb rest ih =>
    intro k ls hok i hi
    rcases hdefs : tb.tools_definitions with e | defs
    · simp only [collectDefs, hdefs] at hok
      exact Except.noConfusion hok
    · rcases hrest : collectDefs (k + 1) rest with e | ls2
      · simp only [collectDefs, hdefs, hrest] at hok
        exact Except.noConfusion hok
      · simp only [collectDefs, hdefs, hrest, Except.ok.injEq] at hok
        subst hok
        cases i with
        | zero =>
          refine ⟨defs, hdefs, ?_⟩
          rw [Nat.add_zero]
          exact List.mem_cons_self _ _
        | succ i2 =>
          have hi2 : i2 < rest.length := by
            simpa using hi
          obtain ⟨defsi, hd2, hm2⟩ := ih hrest i2 hi2
          refine ⟨defsi, hd2, ?_⟩
          have hk : k + 1 + i2 = k + (i2 + 1) := by omega
          rw [hk] at hm2
          exact List.mem_cons_of_mem _ hm2

/-- C6: aggregated descriptor names are pairwise distinct across providers:
whenever `MergeTool::tools_definitions` succeeds, two descriptors that came
from providers with distinct ordinals have distinct rewritten names (even if
their local names coincide), and both rewritten descriptors occur in the
aggregated list. -/
theorem c6_distinct_names {tools : List ToolBoxM} {defs : List ToolDef}
    (hok : mergeToolsDefinitions tools = .ok defs)
    {i j : Nat} (hi : i < tools.length) (hj : j < tools.length) (hij : i ≠ j)
    {ldi ldj : List ToolDef}
    (hdi : (tools.get ⟨i, hi⟩).tools_definitions = .ok ldi)
    (hdj : (tools.get ⟨j, hj⟩).tools_definitions = .ok ldj)
    {di dj : ToolDef} (hmi : di ∈ ldi) (hmj : dj ∈ ldj) :
    renameTool i di ∈ defs ∧ renameTool j dj ∈ defs ∧
      (renameTool i di).name ≠ (renameTool j dj).name := by
  rcases hcd : collectDefs 0 tools with e | ls
  · simp only [mergeToolsDefinitions, hcd] at hok
    exact Except.noConfusion hok
  · simp only [mergeToolsDefinitions, hcd, Except.ok.injEq] at hok
    subst hok
    have hmem : ∀ (p : Nat) (hp : p < tools.length) (ldp : List ToolDef)
        (_ : (tools.get ⟨p, hp⟩).tools_definitions = .ok ldp) (dp : ToolDef)
        (_ : dp ∈ ldp), renameTool p dp ∈ ls.flatten := by
      intro p hp ldp hdp dp hdpmem
      obtain ⟨defsp, hdp2, hmemp⟩ := collectDefs_get hcd p hp
      rw [hdp] at hdp2
      cases hdp2
      rw [Nat.zero_add] at hmemp
      exact List.mem_flatten.mpr ⟨_, hmemp, List.mem_map_of_mem _ hdpmem⟩
    refine ⟨hmem i hi ldi hdi di hmi, hmem j hj ldj hdj dj hmj, ?_⟩
    intro heq
    exact hij (mergedName_inj heq).1

/-- C7: dispatch inverts the naming scheme: for a provider ordinal `i` in
range, calling the aggregator with the rewritten name of local tool `t` and
arguments `args` invokes exactly provider `i` with `t` and the unmodified
`args`, returning that provider's outcome unchanged. -/
theorem c7_dispatch_left_inverse (tools : List ToolBoxM) (i : Nat) (hi : i < tools.length)
    (t : Str) (args : Json) :
    mergeCallTool tools (mergedName i t) args = (tools.get ⟨i, hi⟩).call_tool t args := by
  have hpre : '_' ∉ ("tool-".data ++ natDecimal i) := by
    intro hmem
    rcases List.mem_append.mp hmem with hm | hm
    · exact absurd hm (by decide)
    · exact underscore_not_mem_natDecimal hm
  have hsplit : splitOnce '_' (mergedName i t) = some ("tool-".data ++ natDecimal i, t) := by
    have h2 := splitOnce_no_sep hpre t
    rw [List.append_assoc] at h2
    exact h2
  simp only [mergeCallTool, hsplit]
  rw [splitAll_tool_dash, splitAll_no_sep dash_not_mem_natDecimal]
  simp only [List.get?, parseUsize_natDecimal]
  rw [dif_pos hi]

/- concrete providers used to instantiate the aggregator theorems -/

def fDef : ToolDef := { name := "f".data, description := none, schema := none }

def wToolA : ToolBoxM :=
  { tools_definitions := .ok [fDef], call_tool := fun _ _ => .ok "a".data }

def wToolB : ToolBoxM :=
  { tools_definitions := .ok [fDef], call_tool := fun _ _ => .ok "b".data }

def wDefs : List ToolDef := [renameTool 0 fDef, renameTool 1 fDef]

/-- Witness for C6: two providers that both expose a tool locally named
`f` still yield two distinctly named descriptors after aggregation. -/
theorem c6_witness :
    renameTool 0 fDef ∈ wDefs ∧ renameTool 1 fDef ∈ wDefs ∧
      (renameTool 0 fDef).name ≠ (renameTool 1 fDef).name :=
  c6_distinct_names
    (show mergeToolsDefinitions [wToolA, wToolB] = .ok wDefs from rfl)
    (show 0 < [wToolA, wToolB].length by decide)
    (show 1 < [wToolA, wToolB].length by decide)
    (by decide)
    (show ([wToolA, wToolB].get ⟨0, by decide⟩).tools_definitions = .ok [fDef] from rfl)
    (show ([wToolA, wToolB].get ⟨1, by decide⟩).tools_definitions = .ok [fDef] from rfl)
    (List.mem_cons_self fDef [])
    (List.mem_cons_self fDef [])

/-- Witness for C7: dispatching the aggregated name of provider 0's tool
`f` returns exactly provider 0's result. -/
theorem c7_witness :
    mergeCallTool [wToolA] (mergedName 0 "f".data) Json.null = CallOutcome.ok "a".data :=
  (c7_dispatch_left_inverse [wToolA] 0 (by decide) "f".data Json.null).trans rfl

def wToolTime : ToolBoxM :=
  { tools_definitions := .ok [{ name := "get_current_time".data
                                description := none
                                schema := none }]
    call_tool := fun _ _ => .ok "now".data }

/-- C8 (bug evidence): a requested name whose part before the first `_`
contains no `-` — e.g. a model calling the tool by its original local name
`get_current_time` instead of the rewritten `tool-0_get_current_time` —
makes `MergeTool::call_tool` panic via `.expect("tool-index")` instead of
returning the `NoToolFound` error promised by the `ToolBox::call_tool`
documentation and the spec. -/
theorem c8_panic_on_unprefixed_name :
    mergeCallTool [wToolTime] "get_current_time".data Json.null =
      .panicked "tool-index".data := rfl

/- ============ serde_json string literal encode/decode  ================= -/

/-!
`Agent::run` with answer type `String` wraps the returned text as
`Value::String(resp).to_string()` and then re-parses it with
`serde_json::from_str::<String>`.  The two collaborator functions are
modelled concretely below, following serde_json's serializer (`ser.rs`:
escape `"`, backslash, the named control escapes b/t/n/f/r, and `\u00XX`
for the remaining control characters) and its streaming string parser
(reject unescaped control characters, accept the named escapes plus `/`
and 4-hex-digit `\u` sequences outside the surrogate range; surrogate
pairs are omitted since the encoder never emits them and no claim touches
them).  serde's tolerance for surrounding whitespace is likewise omitted:
the decoder is only ever applied to exact encoder output in `Agent::run`.
-/

def hexDigitChar (n : Nat) : Char :=
  if n < 10 then Char.ofNat (48 + n) else Char.ofNat (87 + n)

def hexDigitVal (c : Char) : Option Nat :=
  if 48 ≤ c.toNat ∧ c.toNat ≤ 57 then some (c.toNat - 48)
  else if 97 ≤ c.toNat ∧ c.toNat ≤ 102 then some (c.toNat - 87)
  else if 65 ≤ c.toNat ∧ c.toNat ≤ 70 then some (c.toNat - 55)
  else none

def escapeChar (c : Char) : Str :=
  if c = '"' then ['\\', '"']
  else if c = '\\' then ['\\', '\\']
  else if c.toNat = 8 then ['\\', 'b']
  else if c.toNat = 9 then ['\\', 't']
  else if c.toNat = 10 then ['\\', 'n']
  else if c.toNat = 12 then ['\\', 'f']
  else if c.toNat = 13 then ['\\', 'r']
  else if c.toNat < 32 then
    ['\\', 'u', '0', '0', hexDigitChar (c.toNat / 16), hexDigitChar (c.toNat % 16)]
  else [c]

def escapeString : Str → Str
  | [] => []
  | c :: rest => escapeChar c ++ escapeString rest

def encodeJsonString (s : Str) : Str := '"' :: escapeString s ++ ['"']

inductive PState where
  | normal
  | esc
  | hex (vs : List Nat)

def codeOfHex (vs : List Nat) : Nat := vs.foldl (fun a v => a * 16 + v) 0

def parseBody : PState → Str → Option Str
  | _, [] => none
  | .normal, c :: rest =>
    if c = '"' then (if rest = [] then some [] else none)
    else if c = '\\' then parseBody .esc rest
    else if c.toNat < 32 then none
    else (parseBody .normal rest).map (c :: ·)
  | .esc, e :: rest =>
    if e = '"' then (parseBody .normal rest).map ('"' :: ·)
    else if e = '\\' then (parseBody .normal rest).map ('\\' :: ·)
    else if e = '/' then (parseBody .normal rest).map ('/' :: ·)
    else if e = 'b' then (parseBody .normal rest).map (Char.ofNat 8 :: ·)
    else if e = 'f' then (parseBody .normal rest).map (Char.ofNat 12 :: ·)
    else if e = 'n' then (parseBody .normal rest).map (Char.ofNat 10 :: ·)
    else if e = 'r' then (parseBody .normal rest).map (Char.ofNat 13 :: ·)
    else if e = 't' then (parseBody .normal rest).map (Char.ofNat 9 :: ·)
    else if e = 'u' then parseBody (.hex []) rest
    else none
  | .hex vs, h :: rest =>
    match hexDigitVal h with
    | none => none
    | some v =>
      if vs.length = 3 then
        if 55296 ≤ codeOfHex (vs ++ [v]) ∧ codeOfHex (vs ++ [v]) ≤ 57343 then none
        else (parseBody .normal rest).map (Char.ofNat (codeOfHex (vs ++ [v])) :: ·)
      else parseBody (.hex (vs ++ [v])) rest

def decodeJsonStringLit (s : Str) : Option Str :=
  match s with
  | [] => none
  | c :: rest => if c = '"' then parseBody .normal rest else none

theorem hexDigitVal_hexDigitChar {d : Nat} (h : d < 16) :
    hexDigitVal (hexDigitChar d) = some d := by
  interval_cases d <;> rfl


theorem parseBody_plain {c : Char} (hq : ¬(c = '"')) (hb : ¬(c = '\\'))
    (hlt : ¬ c.toNat < 32) (r : Str) :
    parseBody .normal (c :: r) = (parseBody .normal r).map (c :: ·) := by
  rw [parseBody, if_neg hq, if_neg hb, if_neg hlt]

theorem parseBody_escapeChar (c : Char) (r : Str) :
    parseBody .normal (escapeChar c ++ r) = (parseBody .normal r).map (c :: ·) := by
  by_cases h1 : c = '"'
  · subst h1; rfl
  · by_cases h2 : c = '\\'
    · subst h2; rfl
    · by_cases h3 : c.toNat = 8
      · have hc : Char.ofNat 8 = c := by rw [← h3, Char.ofNat_toNat]
        have he : escapeChar c = ['\\', 'b'] := by
          rw [escapeChar, if_neg h1, if_neg h2, if_pos h3]
        rw [he]
        show (parseBody .normal r).map (Char.ofNat 8 :: ·) = _
        rw [hc]
      · by_cases h4 : c.toNat = 9
        · have hc : Char.ofNat 9 = c := by rw [← h4, Char.ofNat_toNat]
          have he : escapeChar c = ['\\', 't'] := by
            rw [escapeChar, if_neg h1, if_neg h2, if_neg h3, if_pos h4]
          rw [he]
          show (parseBody .normal r).map (Char.ofNat 9 :: ·) = _
          rw [hc]
        · by_cases h5 : c.toNat = 10
          · have hc : Char.ofNat 10 = c := by rw [← h5, Char.ofNat_toNat]
            have he : escapeChar c = ['\\', 'n'] := by
              rw [escapeChar, if_neg h1, if_neg h2, if_neg h3, if_neg h4, if_pos h5]
            rw [he]
            show (parseBody .normal r).map (Char.ofNat 10 :: ·) = _
            rw [hc]
          · by_cases h6 : c.toNat = 12
            · have hc : Char.ofNat 12 = c := by rw [← h6, Char.ofNat_toNat]
              have he : escapeChar c = ['\\', 'f'] := by
                rw [escapeChar, if_neg h1, if_neg h2, if_neg h3, if_neg h4, if_neg h5, if_pos h6]
              rw [he]
              show (parseBody .normal r).map (Char.ofNat 12 :: ·) = _
              rw [hc]
            · by_cases h7 : c.toNat = 13
              · have hc : Char.ofNat 13 = c := by rw [← h7, Char.ofNat_toNat]
                have he : escapeChar c = ['\\', 'r'] := by
                  rw [escapeChar, if_neg h1, if_neg h2, if_neg h3, if_neg h4, if_neg h5,
                    if_neg h6, if_pos h7]
                rw [he]
                show (parseBody .normal r).map (Char.ofNat 13 :: ·) = _
                rw [hc]
              · by_cases h8 : c.toNat < 32
                · have ha : c.toNat / 16 < 16 := by omega
                  have hbb : c.toNat % 16 < 16 := by omega
                  have he : escapeChar c =
                      ['\\', 'u', '0', '0', hexDigitChar (c.toNat / 16),
                        hexDigitChar (c.toNat % 16)] := by
                    rw [escapeChar, if_neg h1, if_neg h2, if_neg h3, if_neg h4, if_neg h5,
                      if_neg h6, if_neg h7, if_pos h8]
                  rw [he]
                  show parseBody (.hex []) ('0' :: '0' :: hexDigitChar (c.toNat / 16) ::
                    hexDigitChar (c.toNat % 16) :: r) = _
                  show parseBody (.hex [0]) ('0' :: hexDigitChar (c.toNat / 16) ::
                    hexDigitChar (c.toNat % 16) :: r) = _
                  show parseBody (.hex [0, 0]) (hexDigitChar (c.toNat / 16) ::
                    hexDigitChar (c.toNat % 16) :: r) = _
                  rw [parseBody]
                  rw [hexDigitVal_hexDigitChar ha]
                  show parseBody (.hex [0, 0, c.toNat / 16]) (hexDigitChar (c.toNat % 16) :: r) = _
                  rw [parseBody]
                  rw [hexDigitVal_hexDigitChar hbb]
                  show (if (0:Nat) + 2 + 1 = 3 then _ else _) = _
                  rw [if_pos rfl]
                  have hcode : codeOfHex ([0, 0, c.toNat / 16] ++ [c.toNat % 16]) = c.toNat := by
                    simp [codeOfHex, List.foldl]
                    omega
                  rw [hcode]
                  rw [if_neg (by omega), Char.ofNat_toNat]
                · have he : escapeChar c = [c] := by
                    rw [escapeChar, if_neg h1, if_neg h2, if_neg h3, if_neg h4, if_neg h5,
                      if_neg h6, if_neg h7, if_neg h8]
                  rw [he]
                  exact parseBody_plain h1 h2 h8 r

theorem parseBody_escapeString (s : Str) :
    parseBody .normal (escapeString s ++ ['"']) = some s := by
  induction s with
  | nil => rfl
  | cons c rest ih =>
    rw [escapeString, List.append_assoc, parseBody_escapeChar, ih]
    rfl

theorem decode_encode (s : Str) : decodeJsonStringLit (encodeJsonString s) = some s := by
  rw [encodeJsonString]
  show (if ('"' : Char) = '"' then parseBody .normal (escapeString s ++ ['"']) else none) = some s
  rw [if_pos rfl]
  exact parseBody_escapeString s

/- ===================== Agent::run (src/agent.rs) ======================= -/

/-- `genai::chat::JsonSpec` (as built by `JsonSpec::new("ResponseFormat", json!(obj))`). -/
structure JsonSpec where
  name : Str
  schema : Json

/-- The subset of `genai::chat::ChatOptions` that `Agent::run` manipulates:
the temperature set by the default options and the structured-output
response format it may attach. -/
structure ChatOptions where
  temperature : Option ℚ
  response_format : Option JsonSpec

/-- `ChatOptions::default().with_temperature(0.2)`, the options used when the
caller passes no config. -/
def defaultChatOptions : ChatOptions :=
  { temperature := some (2 / 10 : ℚ), response_format := none }

/-- Remove a key from a JSON object's field list (`serde_json::Map::remove`;
keys in a `serde_json` map are unique, so removing every binding of the key
coincides with the Rust behaviour). -/
def eraseKey (k : Str) (fields : List (Str × Json)) : List (Str × Json) :=
  fields.filter (fun kv => !(kv.1 == k))

/-- Key lookup in a JSON object's field list. -/
def lookupKey (k : Str) (fields : List (Str × Json)) : Option Json :=
  (fields.find? (fun kv => kv.1 == k)).map (fun kv => kv.2)

/-- The compile-time data `Agent::run` derives from its answer type `D`:
whether `TypeId::of::<String>() == TypeId::of::<D>()`, the JSON-object form
of `serde_json::to_value(schema_for!(D))` (a schemars root schema always
serializes to a JSON object, so `as_object_mut().unwrap()` cannot panic and
`to_value` cannot fail there), and `serde_json::from_str::<D>`. -/
structure AnswerShape (D : Type) where
  isString : Bool
  schemaObj : List (Str × Json)
  decode : Str → Option D

/-- `serde_json::to_value(schema_for!(String))` as a field list. -/
def stringSchemaObj : List (Str × Json) :=
  [("$schema".data, Json.str "http://json-schema.org/draft-07/schema#".data),
   ("title".data, Json.str "String".data),
   ("type".data, Json.str "string".data)]

/-- The opaque-text shape: answer type `String`. -/
def stringShape : AnswerShape Str :=
  { isString := true, schemaObj := stringSchemaObj, decode := decodeJsonStringLit }

/-- One request handed to `Client::exec_chat`: the model id, the cloned
history, the optional tool definitions, and the chat options. -/
structure SentRequest where
  model : Str
  messages : List ChatMessage
  tools : Option (List ToolDef)
  options : ChatOptions

/-- The failure classes `Agent::run` can produce, one constructor per exit
path of the Rust function: a `ToolError` from `tools_definitions()?`, a
transport error from `exec_chat(..).await?`, a `serde_json` failure from
`from_str(&resp)?`, the `anyhow!("Unsupported message content ..")` arm,
the `anyhow!("Unable to get response in {max_iterations} tries")` exit, and
a Rust panic (`todo!` in the no-toolbox arm, or a panicking tool call)
unwinding out of `run`. -/
inductive RunError where
  | toolDefs (e : ToolError)
  | transport (msg : Str)
  | decodeError
  | unsupportedContent
  | maxIterations (n : Nat)
  | panic (msg : Str)

/-- Observable result of one `Agent::run` call: the returned
`Result<(Vec<D>, u32)>`, the final `self.history`, and the trace of
requests handed to the chat transport. -/
structure RunResult (D : Type) where
  outcome : Except RunError (List D × Nat)
  history : List ChatMessage
  requests : List SentRequest

/-- `DEFAULT_ITERATION` in src/agent.rs. -/
def DEFAULT_ITERATION : Nat := 5

/-- Lines 136-147 of src/agent.rs: start from the caller's config or the
default options; for a non-`String` answer type, attach
`JsonSpec::new("ResponseFormat", ..)` whose schema is the derived schema
object with the top-level keys `$schema` and `title` removed. -/
def effectiveOptions {D : Type} (shape : AnswerShape D) (config : Option ChatOptions) :
    ChatOptions :=
  let chat_opts := config.getD defaultChatOptions
  if shape.isString then chat_opts
  else
    { chat_opts with
      response_format := some
        { name := "ResponseFormat".data
          schema := Json.obj (eraseKey "title".data (eraseKey "$schema".data shape.schemaObj)) } }

/-- `toolbox.tools_definitions()?` guarded by `if let Some(toolbox)`. -/
def toolsFor : Option ToolBoxM → Except ToolError (Option (List ToolDef))
  | none => .ok none
  | some tb => (tb.tools_definitions).map some

/-- The panic message of `todo!("No tool found for {}", tool_request.fn_name)`. -/
def todoNoToolMsg (name : Str) : Str :=
  "not yet implemented: No tool found for ".data ++ name

/-- The `for tool_request in tools_call` loop of `Agent::run` (lines
192-227): each dispatched call sets `tool_call = true`; a successful call
appends a `ToolResponse` with its result, a failed call appends a
`ToolResponse` carrying `err.to_string()`; with no toolbox the loop hits
`todo!`.  Returns the `tool_call` flag and the history as mutated up to the
point of return. -/
def processCalls (toolbox : Option ToolBoxM) :
    List ToolCall → List ChatMessage → Bool → Except RunError Bool × List ChatMessage
  | [], history, tool_call => (.ok tool_call, history)
  | req :: rest, history, _tool_call =>
    match toolbox with
    | some tool =>
      match tool.call_tool req.fn_name req.fn_arguments with
      | .ok result =>
        processCalls toolbox rest (history ++ [ChatMessage.toolResponse req.call_id result]) true
      | .err e =>
        processCalls toolbox rest
          (history ++ [ChatMessage.toolResponse req.call_id e.toMessage]) true
      | .panicked msg => (.error (.panic msg), history)
    | none => (.error (.panic (todoNoToolMsg req.fn_name)), history)

/-- The `for content in chat_resp.content` loop of `Agent::run` (lines
173-236): a `Text` item is appended as an `Assistant` message, then (for
answer type `String`) wrapped via `Value::String(..).to_string()` and
decoded with `from_str`, a decode failure aborting; a `ToolCalls` item is
appended as one message and its calls dispatched in order; any other
content kind aborts with the unsupported-content error. -/
def processContents {D : Type} (shape : AnswerShape D) (toolbox : Option ToolBoxM) :
    List MessageContent → List ChatMessage → List D → Bool →
    Except RunError (List D × Bool) × List ChatMessage
  | [], history, answers, tool_call => (.ok (answers, tool_call), history)
  | .text s :: rest, history, answers, tool_call =>
    let history2 := history ++ [ChatMessage.assistant s]
    let payload := if shape.isString then encodeJsonString s else s
    match shape.decode payload with
    | none => (.error .decodeError, history2)
    | some v => processContents shape toolbox rest history2 (answers ++ [v]) tool_call
  | .toolCalls calls :: rest, history, answers, tool_call =>
    let history2 := history ++ [ChatMessage.toolCalls calls]
    match processCalls toolbox calls history2 tool_call with
    | (.error e, history3) => (.error e, history3)
    | (.ok tool_call2, history3) => processContents shape toolbox rest history3 answers tool_call2
  | .other :: _, history, _, _ => (.error .unsupportedContent, history)

/-- The `for iteration in 0..max_iterations` loop of `Agent::run` (lines
154-241), with `fuel` the remaining iterations: build the request from the
current history plus the tool definitions (a `tools_definitions` error
aborting before any send), send it, process the response content, and
either return the accumulated answers with the current iteration index
(when no tool was called) or continue; an exhausted range yields the
`Unable to get response in {max_iterations} tries` error. -/
def runIter {D : Type} (shape : AnswerShape D)
    (backend : SentRequest → Except Str ChatResponse) (model : Str)
    (toolbox : Option ToolBoxM) (chat_opts : ChatOptions) (max_iterations : Nat) :
    Nat → Nat → List ChatMessage → List D → List SentRequest → RunResult D
  | 0, _iteration, history, _answers, requests =>
    { outcome := .error (.maxIterations max_iterations), history := history, requests := requests }
  | fuel + 1, iteration, history, answers, requests =>
    match toolsFor toolbox with
    | .error e =>
      { outcome := .error (.toolDefs e), history := history, requests := requests }
    | .ok toolsOpt =>
      let req : SentRequest :=
        { model := model, messages := history, tools := toolsOpt, options := chat_opts }
      let requests2 := requests ++ [req]
      match backend req with
      | .error msg =>
        { outcome := .error (.transport msg), history := history, requests := requests2 }
      | .ok resp =>
        match processContents shape toolbox resp.content history answers false with
        | (.error e, history2) =>
          { outcome := .error e, history := history2, requests := requests2 }
        | (.ok (answers2, tool_call), history2) =>
          if tool_call then
            runIter shape backend model toolbox chat_opts max_iterations fuel (iteration + 1)
              history2 answers2 requests2
          else
            { outcome := .ok (answers2, iteration), history := history2, requests := requests2 }

/-- `Agent::run` (src/agent.rs lines 111-246): push the prompt as a `User`
message, resolve the chat options and the response format, resolve the
iteration bound (`DEFAULT_ITERATION` when unspecified), and run the loop.
The chat transport is the `backend` parameter; `history` is the agent's
history as of the call (`self.history`). -/
def Agent.run {D : Type} (shape : AnswerShape D)
    (backend : SentRequest → Except Str ChatResponse) (model : Str)
    (history : List ChatMessage) (prompt : Str) (toolbox : Option ToolBoxM)
    (iteration : Option Nat) (config : Option ChatOptions) : RunResult D :=
  let history2 := history ++ [ChatMessage.user prompt]
  let chat_opts := effectiveOptions shape config
  let max_iterations := iteration.getD DEFAULT_ITERATION
  runIter shape backend model toolbox chat_opts max_iterations max_iterations 0 history2 [] []

/-- The first request a run sends, given that `toolsFor toolbox` succeeded
with `toolsOpt`. -/
def firstRequest {D : Type} (shape : AnswerShape D) (model : Str)
    (history : List ChatMessage) (prompt : Str) (toolsOpt : Option (List ToolDef))
    (config : Option ChatOptions) : SentRequest :=
  { model := model
    messages := history ++ [ChatMessage.user prompt]
    tools := toolsOpt
    options := effectiveOptions shape config }

/- ===================== run-loop lemmas ================================ -/

/-- The request built at the top of each loop iteration. -/
def mkRequest (model : Str) (history : List ChatMessage) (toolsOpt : Option (List ToolDef))
    (chat_opts : ChatOptions) : SentRequest :=
  { model := model, messages := history, tools := toolsOpt, options := chat_opts }

theorem runIter_succ {D : Type} (shape : AnswerShape D)
    (backend : SentRequest → Except Str ChatResponse) (model : Str)
    (toolbox : Option ToolBoxM) (chat_opts : ChatOptions) (maxIter fuel iteration : Nat)
    (history : List ChatMessage) (answers : List D) (requests : List SentRequest)
    {toolsOpt : Option (List ToolDef)} (htools : toolsFor toolbox = .ok toolsOpt) :
    runIter shape backend model toolbox chat_opts maxIter (fuel + 1) iteration history answers
        requests =
      match backend (mkRequest model history toolsOpt chat_opts) with
      | .error msg =>
        { outcome := .error (.transport msg), history := history,
          requests := requests ++ [mkRequest model history toolsOpt chat_opts] }
      | .ok resp =>
        match processContents shape toolbox resp.content history answers false with
        | (.error e, history2) =>
          { outcome := .error e, history := history2,
            requests := requests ++ [mkRequest model history toolsOpt chat_opts] }
        | (.ok (answers2, tool_call), history2) =>
          if tool_call then
            runIter shape backend model toolbox chat_opts maxIter fuel (iteration + 1) history2
              answers2 (requests ++ [mkRequest model history toolsOpt chat_opts])
          else
            { outcome := .ok (answers2, iteration), history := history2,
              requests := requests ++ [mkRequest model history toolsOpt chat_opts] } := by
  simp only [runIter, htools, mkRequest]

theorem stringShape_decode_text (s : Str) :
    stringShape.decode (if stringShape.isString then encodeJsonString s else s) = some s := by
  show decodeJsonStringLit (if (true : Bool) then encodeJsonString s else s) = some s
  rw [if_pos rfl]
  exact decode_encode s

theorem processContents_text_string (toolbox : Option ToolBoxM) (s : Str)
    (rest : List MessageContent) (history : List ChatMessage) (answers : List Str)
    (tool_call : Bool) :
    processContents stringShape toolbox (.text s :: rest) history answers tool_call =
      processContents stringShape toolbox rest (history ++ [ChatMessage.assistant s])
        (answers ++ [s]) tool_call := by
  simp only [processContents, stringShape_decode_text]

/-- C3: a run whose backend answers the first exchange with plain text `t`
(and no tool calls) terminates successfully on iteration 0 for the opaque
`String` shape: the decoded answer list is `[t]`, the text is appended to
the history as an `Assistant` message, and exactly one request was sent. -/
theorem c3_text_first_exchange
    (backend : SentRequest → Except Str ChatResponse) (model : Str)
    (history : List ChatMessage) (prompt : Str) (toolbox : Option ToolBoxM)
    (iteration : Option Nat) (config : Option ChatOptions)
    {toolsOpt : Option (List ToolDef)} {rc : Option Str} {t : Str}
    (htools : toolsFor toolbox = .ok toolsOpt)
    (hb : backend (firstRequest stringShape model history prompt toolsOpt config) =
      .ok { reasoning_content := rc, content := [MessageContent.text t] })
    (hiter : 1 ≤ iteration.getD DEFAULT_ITERATION) :
    Agent.run stringShape backend model history prompt toolbox iteration config =
      { outcome := .ok ([t], 0)
        history := history ++ [ChatMessage.user prompt, ChatMessage.assistant t]
        requests := [firstRequest stringShape model history prompt toolsOpt config] } := by
  obtain ⟨m, hm⟩ : ∃ m, iteration.getD DEFAULT_ITERATION = m + 1 :=
    ⟨_, (Nat.succ_pred_eq_of_pos hiter).symm⟩
  rw [Agent.run]
  rw [hm]
  rw [runIter_succ _ _ _ _ _ _ _ _ _ _ _ htools]
  have hb2 : backend (mkRequest model (history ++ [ChatMessage.user prompt]) toolsOpt
      (effectiveOptions stringShape config)) =
      .ok { reasoning_content := rc, content := [MessageContent.text t] } := hb
  simp only [hb2, processContents_text_string, processContents]
  simp [stringShape_decode_text, firstRequest, mkRequest, List.append_assoc]

theorem processCalls_history_extends (toolbox : Option ToolBoxM) :
    ∀ (calls : List ToolCall) (history : List ChatMessage) (b : Bool),
    ∃ tail, (processCalls toolbox calls history b).2 = history ++ tail := by
  intro calls
  induction calls with
  | nil =>
    intro h b
    exact ⟨[], by simp [processCalls]⟩
  | cons c rest ih =>
    intro h b
    cases toolbox with
    | none => exact ⟨[], by simp [processCalls]⟩
    | some tb =>
      cases hc : tb.call_tool c.fn_name c.fn_arguments with
      | ok r =>
        obtain ⟨tail, ht⟩ := ih (h ++ [ChatMessage.toolResponse c.call_id r]) true
        exact ⟨ChatMessage.toolResponse c.call_id r :: tail,
          by simp [processCalls, hc, ht]⟩
      | err e =>
        obtain ⟨tail, ht⟩ := ih (h ++ [ChatMessage.toolResponse c.call_id e.toMessage]) true
        exact ⟨ChatMessage.toolResponse c.call_id e.toMessage :: tail,
          by simp [processCalls, hc, ht]⟩
      | panicked m =>
        exact ⟨[], by simp [processCalls, hc]⟩

theorem processContents_history_extends {D : Type} (shape : AnswerShape D)
    (toolbox : Option ToolBoxM) :
    ∀ (cs : List MessageContent) (history : List ChatMessage) (answers : List D) (b : Bool),
    ∃ tail, (processContents shape toolbox cs history answers b).2 = history ++ tail := by
  intro cs
  induction cs with
  | nil =>
    intro h a b
    exact ⟨[], by simp [processContents]⟩
  | cons c rest ih =>
    intro h a b
    cases c with
    | text s =>
      cases hd : shape.decode (if shape.isString then encodeJsonString s else s) with
      | none =>
        exact ⟨[ChatMessage.assistant s], by simp [processContents, hd]⟩
      | some v =>
        obtain ⟨tail, ht⟩ := ih (h ++ [ChatMessage.assistant s]) (a ++ [v]) b
        exact ⟨ChatMessage.assistant s :: tail, by simp [processContents, hd, ht]⟩
    | toolCalls calls =>
      rcases hpc : processCalls toolbox calls (h ++ [ChatMessage.toolCalls calls]) b
        with ⟨res, h3⟩
      obtain ⟨t2, ht2⟩ := processCalls_history_extends toolbox calls
        (h ++ [ChatMessage.toolCalls calls]) b
      rw [hpc] at ht2
      cases res with
      | error e =>
        refine ⟨ChatMessage.toolCalls calls :: t2, ?_⟩
        simp only [processContents, hpc]
        simp at ht2
        simp [ht2]
      | ok flag =>
        obtain ⟨t3, ht3⟩ := ih h3 a flag
        refine ⟨ChatMessage.toolCalls calls :: (t2 ++ t3), ?_⟩
        simp only [processContents, hpc, ht3]
        simp at ht2
        simp [ht2]
    | other =>
      exact ⟨[], by simp [processContents]⟩

theorem runIter_extends {D : Type} (shape : AnswerShape D)
    (backend : SentRequest → Except Str ChatResponse) (model : Str)
    (toolbox : Option ToolBoxM) (opts : ChatOptions) (maxIter : Nat) :
    ∀ (fuel iteration : Nat) (history : List ChatMessage) (answers : List D)
      (requests : List SentRequest),
    (∃ htail, (runIter shape backend model toolbox opts maxIter fuel iteration history answers
        requests).history = history ++ htail) ∧
    (∃ rtail, (runIter shape backend model toolbox opts maxIter fuel iteration history answers
        requests).requests = requests ++ rtail) := by
  intro fuel
  induction fuel with
  | zero =>
    intro iteration h a reqs
    exact ⟨⟨[], by simp [runIter]⟩, ⟨[], by simp [runIter]⟩⟩
  | succ fuel ih =>
    intro iteration h a reqs
    rcases ht : toolsFor toolbox with e | tOpt
    · constructor
      · exact ⟨[], by simp [runIter, ht]⟩
      · exact ⟨[], by simp [runIter, ht]⟩
    · rw [runIter_succ _ _ _ _ _ _ _ _ _ _ _ ht]
      cases hbk : backend (mkRequest model h tOpt opts) with
      | error msg =>
        exact ⟨⟨[], by simp⟩, ⟨[mkRequest model h tOpt opts], by simp⟩⟩
      | ok resp =>
        simp only [hbk]
        rcases hpc : processContents shape toolbox resp.content h a false with ⟨res, h2⟩
        obtain ⟨t2, ht2⟩ := processContents_history_extends shape toolbox resp.content h a false
        rw [hpc] at ht2
        simp only at ht2
        cases res with
        | error e =>
          refine ⟨⟨t2, ?_⟩, ⟨[mkRequest model h tOpt opts], ?_⟩⟩ <;> simp [ht2]
        | ok p =>
          rcases p with ⟨a2, flag⟩
          cases flag with
          | false =>
            refine ⟨⟨t2, ?_⟩, ⟨[mkRequest model h tOpt opts], ?_⟩⟩ <;> simp [ht2]
          | true =>
            obtain ⟨⟨t3, ht3⟩, ⟨r3, hr3⟩⟩ :=
              ih (iteration + 1) h2 a2 (reqs ++ [mkRequest model h tOpt opts])
            refine ⟨⟨t2 ++ t3, ?_⟩, ⟨mkRequest model h tOpt opts :: r3, ?_⟩⟩
            · show (runIter shape backend model toolbox opts maxIter fuel (iteration + 1) h2 a2
                  (reqs ++ [mkRequest model h tOpt opts])).history = h ++ (t2 ++ t3)
              rw [ht3, ht2, List.append_assoc]
            · show (runIter shape backend model toolbox opts maxIter fuel (iteration + 1) h2 a2
                  (reqs ++ [mkRequest model h tOpt opts])).requests =
                reqs ++ (mkRequest model h tOpt opts :: r3)
              rw [hr3, List.append_assoc]
              rfl

/-- C10: `run` is not atomic on failure: whatever the outcome, the final
history begins with the prior history followed by the `User` prompt
appended at the start of the run (nothing is rolled back on error, so a
subsequent `run` on the same agent continues from the partial conversation
state the failed run left behind). -/
theorem c10_history_retained {D : Type} (shape : AnswerShape D)
    (backend : SentRequest → Except Str ChatResponse) (model : Str)
    (history : List ChatMessage) (prompt : Str) (toolbox : Option ToolBoxM)
    (iteration : Option Nat) (config : Option ChatOptions) :
    (Agent.run shape backend model history prompt toolbox iteration config).history.take
        (history.length + 1) = history ++ [ChatMessage.user prompt] := by
  obtain ⟨⟨htail, hh⟩, _⟩ := runIter_extends shape backend model toolbox
    (effectiveOptions shape config) (iteration.getD DEFAULT_ITERATION)
    (iteration.getD DEFAULT_ITERATION) 0 (history ++ [ChatMessage.user prompt]) [] []
  show (runIter shape backend model toolbox (effectiveOptions shape config)
      (iteration.getD DEFAULT_ITERATION) (iteration.getD DEFAULT_ITERATION) 0
      (history ++ [ChatMessage.user prompt]) [] []).history.take (history.length + 1) =
    history ++ [ChatMessage.user prompt]
  rw [hh]
  have hlen : history.length + 1 = (history ++ [ChatMessage.user prompt]).length := by simp
  rw [hlen, List.take_left]

/-- Witness for C3 at a concrete run: bound default, no tools, backend
immediately answers `42`. -/
theorem c3_witness :
    Agent.run stringShape
        (fun _ => .ok ⟨none, [MessageContent.text "42".data]⟩)
        "m".data [] "q".data none none none =
      ⟨.ok (["42".data], 0),
       [ChatMessage.user "q".data, ChatMessage.assistant "42".data],
       [firstRequest stringShape "m".data [] "q".data none none]⟩ :=
  c3_text_first_exchange
    (fun _ => .ok ⟨none, [MessageContent.text "42".data]⟩)
    "m".data [] "q".data none none none rfl rfl (by decide)

/- ===================== request options (C4) ============================ -/

theorem eraseKey_cons (k : Str) (kv : Str × Json) (rest : List (Str × Json)) :
    eraseKey k (kv :: rest) =
      if kv.1 == k then eraseKey k rest else kv :: eraseKey k rest := by
  rw [eraseKey, List.filter_cons]
  by_cases hk : kv.1 == k
  · simp [hk, eraseKey]
  · simp [hk, eraseKey]

theorem lookupKey_cons (k : Str) (kv : Str × Json) (rest : List (Str × Json)) :
    lookupKey k (kv :: rest) =
      if kv.1 == k then some kv.2 else lookupKey k rest := by
  by_cases hk : (kv.1 == k) = true
  · rw [if_pos hk]
    simp only [lookupKey, List.find?, hk]
    rfl
  · rw [if_neg hk]
    have hk2 : (kv.1 == k) = false := by
      revert hk
      cases kv.1 == k <;> simp
    simp only [lookupKey, List.find?, hk2]

theorem lookupKey_eraseKey_self (k : Str) : ∀ fields : List (Str × Json),
    lookupKey k (eraseKey k fields) = none := by
  intro fields
  induction fields with
  | nil => rfl
  | cons kv rest ih =>
    rw [eraseKey_cons]
    by_cases hk : kv.1 == k
    · rw [if_pos hk]
      exact ih
    · rw [if_neg hk, lookupKey_cons, if_neg hk]
      exact ih

theorem lookupKey_eraseKey_none {k k2 : Str} : ∀ {fields : List (Str × Json)},
    lookupKey k fields = none → lookupKey k (eraseKey k2 fields) = none := by
  intro fields
  induction fields with
  | nil => intro _; rfl
  | cons kv rest ih =>
    intro hl
    rw [lookupKey_cons] at hl
    by_cases hk : kv.1 == k
    · rw [if_pos hk] at hl
      exact Option.noConfusion hl
    · rw [if_neg hk] at hl
      rw [eraseKey_cons]
      by_cases hk2 : kv.1 == k2
      · rw [if_pos hk2]
        exact ih hl
      · rw [if_neg hk2, lookupKey_cons, if_neg hk]
        exact ih hl

theorem runIter_request_options {D : Type} (shape : AnswerShape D)
    (backend : SentRequest → Except Str ChatResponse) (model : Str)
    (toolbox : Option ToolBoxM) (opts : ChatOptions) (maxIter : Nat) :
    ∀ (fuel iteration : Nat) (history : List ChatMessage) (answers : List D)
      (requests : List SentRequest) (req : SentRequest),
    req ∈ (runIter shape backend model toolbox opts maxIter fuel iteration history answers
        requests).requests →
    req ∈ requests ∨ req.options = opts := by
  intro fuel
  induction fuel with
  | zero =>
    intro iteration h a reqs req hm
    exact Or.inl (by simpa [runIter] using hm)
  | succ fuel ih =>
    intro iteration h a reqs req hm
    rcases ht : toolsFor toolbox with e | tOpt
    · exact Or.inl (by simpa [runIter, ht] using hm)
    · rw [runIter_succ _ _ _ _ _ _ _ _ _ _ _ ht] at hm
      rcases hbk : backend (mkRequest model h tOpt opts) with msg | resp
      · rw [hbk] at hm
        simp only at hm
        rcases List.mem_append.mp hm with h1 | h1
        · exact Or.inl h1
        · rcases List.mem_singleton.mp h1 with rfl
          exact Or.inr rfl
      · rw [hbk] at hm
        simp only at hm
        rcases hpc : processContents shape toolbox resp.content h a false with ⟨res, h2⟩
        rw [hpc] at hm
        cases res with
        | error e =>
          simp only at hm
          rcases List.mem_append.mp hm with h1 | h1
          · exact Or.inl h1
          · rcases List.mem_singleton.mp h1 with rfl
            exact Or.inr rfl
        | ok p =>
          rcases p with ⟨a2, flag⟩
          cases flag with
          | false =>
            simp only at hm
            rcases List.mem_append.mp hm with h1 | h1
            · exact Or.inl h1
            · rcases List.mem_singleton.mp h1 with rfl
              exact Or.inr rfl
          | true =>
            have hm2 : req ∈ (runIter shape backend model toolbox opts maxIter fuel
                (iteration + 1) h2 a2 (reqs ++ [mkRequest model h tOpt opts])).requests := hm
            rcases ih (iteration + 1) h2 a2 (reqs ++ [mkRequest model h tOpt opts]) req hm2
              with hin | hop
            · rcases List.mem_append.mp hin with h1 | h1
              · exact Or.inl h1
              · rcases List.mem_singleton.mp h1 with rfl
                exact Or.inr rfl
            · exact Or.inr hop

/-- C4 (amended): every outbound request of a run carries exactly the
options `run` computed up front: for the opaque `String` shape the engine
attaches nothing, so the request's response format is whatever the caller's
options already contained (none for the default); for a structured shape it
is the derived schema object with top-level `$schema` and `title` removed,
and the attached object contains neither key. -/
theorem c4_amended {D : Type} (shape : AnswerShape D)
    (backend : SentRequest → Except Str ChatResponse) (model : Str)
    (history : List ChatMessage) (prompt : Str) (toolbox : Option ToolBoxM)
    (iteration : Option Nat) (config : Option ChatOptions) (req : SentRequest)
    (hmem : req ∈ (Agent.run shape backend model history prompt toolbox iteration
      config).requests) :
    req.options = effectiveOptions shape config ∧
    (shape.isString = true →
      req.options.response_format = (config.getD defaultChatOptions).response_format) ∧
    (shape.isString = false →
      req.options.response_format = some
        { name := "ResponseFormat".data,
          schema := Json.obj (eraseKey "title".data (eraseKey "$schema".data shape.schemaObj)) } ∧
      lookupKey "$schema".data (eraseKey "title".data (eraseKey "$schema".data shape.schemaObj))
        = none ∧
      lookupKey "title".data (eraseKey "title".data (eraseKey "$schema".data shape.schemaObj))
        = none) := by
  have hopts : req.options = effectiveOptions shape config := by
    have hm2 : req ∈ (runIter shape backend model toolbox (effectiveOptions shape config)
        (iteration.getD DEFAULT_ITERATION) (iteration.getD DEFAULT_ITERATION) 0
        (history ++ [ChatMessage.user prompt]) [] []).requests := hmem
    rcases runIter_request_options shape backend model toolbox (effectiveOptions shape config)
      (iteration.getD DEFAULT_ITERATION) (iteration.getD DEFAULT_ITERATION) 0
      (history ++ [ChatMessage.user prompt]) [] [] req hm2 with h1 | h1
    · exact absurd h1 (List.not_mem_nil req)
    · exact h1
  refine ⟨hopts, ?_, ?_⟩
  · intro hstr
    rw [hopts]
    simp [effectiveOptions, hstr]
  · intro hstr
    rw [hopts]
    refine ⟨by simp [effectiveOptions, hstr], ?_, ?_⟩
    · exact lookupKey_eraseKey_none (lookupKey_eraseKey_self _ _)
    · exact lookupKey_eraseKey_self _ _

def cfgX : ChatOptions :=
  { temperature := none, response_format := some { name := "X".data, schema := Json.null } }

def bkText : SentRequest → Except Str ChatResponse :=
  fun _ => .ok ⟨none, [MessageContent.text "hi".data]⟩

/-- C4 counterexample: with the opaque `String` shape but a caller-supplied
config that already holds a response format, the single outbound request of
the run carries that response-format schema — so "no response-format schema
is attached to the outbound request" is false as stated for every run. -/
theorem c4_counterexample :
    ((Agent.run stringShape bkText "m".data [] "p".data none none
        (some cfgX)).requests.map (fun r => r.options.response_format)) =
      [some { name := "X".data, schema := Json.null }] := rfl

/-- Witness for C4 (amended) at a concrete request of a concrete run. -/
theorem c4_witness :
    (firstRequest stringShape "m".data ([] : List ChatMessage) "p".data none none).options =
        effectiveOptions stringShape none ∧
    (stringShape.isString = true →
      (firstRequest stringShape "m".data ([] : List ChatMessage) "p".data none
          none).options.response_format =
        ((none : Option ChatOptions).getD defaultChatOptions).response_format) ∧
    (stringShape.isString = false →
      (firstRequest stringShape "m".data ([] : List ChatMessage) "p".data none
          none).options.response_format = some
        { name := "ResponseFormat".data,
          schema := Json.obj (eraseKey "title".data
            (eraseKey "$schema".data stringShape.schemaObj)) } ∧
      lookupKey "$schema".data (eraseKey "title".data
        (eraseKey "$schema".data stringShape.schemaObj)) = none ∧
      lookupKey "title".data (eraseKey "title".data
        (eraseKey "$schema".data stringShape.schemaObj)) = none) :=
  c4_amended stringShape bkText "m".data [] "p".data none none none
    (firstRequest stringShape "m".data [] "p".data none none)
    (List.mem_singleton_self _)

/- ===================== unsupported content (C9) ======================== -/

/-- C9 (amended): a response whose first content item is of an unsupported
kind aborts the run immediately with the unsupported-content error after a
single request; the claim's other case — an empty response — does not
abort (see the counterexample), so it is excluded here. -/
theorem c9_amended {D : Type} (shape : AnswerShape D)
    (backend : SentRequest → Except Str ChatResponse) (model : Str)
    (history : List ChatMessage) (prompt : Str) (toolbox : Option ToolBoxM)
    (iteration : Option Nat) (config : Option ChatOptions)
    {toolsOpt : Option (List ToolDef)} {rc : Option Str} {rest : List MessageContent}
    (htools : toolsFor toolbox = .ok toolsOpt)
    (hb : backend (firstRequest shape model history prompt toolsOpt config) =
      .ok ⟨rc, MessageContent.other :: rest⟩)
    (hiter : 1 ≤ iteration.getD DEFAULT_ITERATION) :
    (Agent.run shape backend model history prompt toolbox iteration config).outcome =
        .error .unsupportedContent ∧
    (Agent.run shape backend model history prompt toolbox iteration config).requests.length
        = 1 := by
  obtain ⟨m, hm⟩ : ∃ m, iteration.getD DEFAULT_ITERATION = m + 1 :=
    ⟨_, (Nat.succ_pred_eq_of_pos hiter).symm⟩
  rw [Agent.run, hm]
  rw [runIter_succ _ _ _ _ _ _ _ _ _ _ _ htools]
  have hb2 : backend (mkRequest model (history ++ [ChatMessage.user prompt]) toolsOpt
      (effectiveOptions shape config)) = .ok ⟨rc, MessageContent.other :: rest⟩ := hb
  simp [hb2, processContents]

def bkEmpty : SentRequest → Except Str ChatResponse := fun _ => .ok ⟨none, []⟩

/-- C9 counterexample: a backend response with no content items at all does
not abort the run — the iteration's `tool_call` flag stays false and `run`
returns success with an empty answer list on iteration 0, contradicting the
claim that an empty response is a fatal condition. -/
theorem c9_counterexample :
    (Agent.run stringShape bkEmpty "m".data [] "p".data none none none).outcome =
      .ok ([], 0) := rfl

/-- Witness for C9 (amended) at a concrete run. -/
theorem c9_witness :
    (Agent.run stringShape (fun _ => .ok ⟨none, [MessageContent.other]⟩) "m".data []
        "p".data none none none).outcome = .error .unsupportedContent ∧
    (Agent.run stringShape (fun _ => .ok ⟨none, [MessageContent.other]⟩) "m".data []
        "p".data none none none).requests.length = 1 :=
  c9_amended stringShape (fun _ => .ok ⟨none, [MessageContent.other]⟩) "m".data []
    "p".data none none none rfl rfl (by decide)

/- ===================== iteration exhaustion (C5) ======================= -/

theorem processCalls_ok_of_no_panic {tb : ToolBoxM}
    (hnp : ∀ (n : Str) (a : Json) (m : Str), tb.call_tool n a ≠ .panicked m) :
    ∀ (calls : List ToolCall) (history : List ChatMessage) (b : Bool), calls ≠ [] →
    ∃ h2, processCalls (some tb) calls history b = (.ok true, h2) := by
  intro calls
  induction calls with
  | nil =>
    intro h b hne
    exact absurd rfl hne
  | cons c rest ih =>
    intro h b _
    cases hc : tb.call_tool c.fn_name c.fn_arguments with
    | ok r =>
      by_cases hr : rest = []
      · subst hr
        exact ⟨h ++ [ChatMessage.toolResponse c.call_id r], by simp [processCalls, hc]⟩
      · obtain ⟨h2, hh⟩ := ih (h ++ [ChatMessage.toolResponse c.call_id r]) true hr
        exact ⟨h2, by simp [processCalls, hc, hh]⟩
    | err e =>
      by_cases hr : rest = []
      · subst hr
        exact ⟨h ++ [ChatMessage.toolResponse c.call_id e.toMessage],
          by simp [processCalls, hc]⟩
      · obtain ⟨h2, hh⟩ := ih (h ++ [ChatMessage.toolResponse c.call_id e.toMessage]) true hr
        exact ⟨h2, by simp [processCalls, hc, hh]⟩
    | panicked m =>
      exact absurd hc (hnp _ _ _)

theorem c5_loop {D : Type} (shape : AnswerShape D)
    (backend : SentRequest → Except Str ChatResponse) (model : Str)
    {tb : ToolBoxM} {defs : List ToolDef}
    (hdefs : tb.tools_definitions = .ok defs)
    (hnp : ∀ (n : Str) (a : Json) (m : Str), tb.call_tool n a ≠ .panicked m)
    (opts : ChatOptions) (maxIter : Nat)
    (hb : ∀ req, ∃ rc calls, backend req = .ok ⟨rc, [MessageContent.toolCalls calls]⟩ ∧
      calls ≠ []) :
    ∀ (fuel iteration : Nat) (history : List ChatMessage) (answers : List D)
      (requests : List SentRequest),
    (runIter shape backend model (some tb) opts maxIter fuel iteration history answers
        requests).outcome = .error (.maxIterations maxIter) ∧
    (runIter shape backend model (some tb) opts maxIter fuel iteration history answers
        requests).requests.length = requests.length + fuel := by
  have htools : toolsFor (some tb) = .ok (some defs) := by
    rw [toolsFor, hdefs]
    rfl
  intro fuel
  induction fuel with
  | zero =>
    intro iteration h a reqs
    exact ⟨by simp [runIter], by simp [runIter]⟩
  | succ fuel ih =>
    intro iteration h a reqs
    rw [runIter_succ _ _ _ _ _ _ _ _ _ _ _ htools]
    obtain ⟨rc, calls, hbk, hne⟩ := hb (mkRequest model h (some defs) opts)
    rw [hbk]
    obtain ⟨h2, hpc⟩ := processCalls_ok_of_no_panic hnp calls
      (h ++ [ChatMessage.toolCalls calls]) false hne
    simp only [processContents, hpc]
    rw [if_pos trivial]
    obtain ⟨ho, hr⟩ := ih (iteration + 1) h2 a (reqs ++ [mkRequest model h (some defs) opts])
    refine ⟨ho, ?_⟩
    rw [hr]
    simp
    omega

/-- C5 (amended): a run with a toolbox whose definitions resolve and whose
calls never panic, against a backend that answers every turn with a
non-empty batch of tool calls and never with text, makes exactly
`iteration.getD DEFAULT_ITERATION` requests to the transport and then
fails with the iteration-exhaustion error (a distinct constructor from the
decode-failure error).  Without a toolbox the same backend behaviour
instead panics on the first turn (see the counterexample), which is why the
toolbox hypotheses are required. -/
theorem c5_amended {D : Type} (shape : AnswerShape D)
    (backend : SentRequest → Except Str ChatResponse) (model : Str)
    (history : List ChatMessage) (prompt : Str)
    {tb : ToolBoxM} {defs : List ToolDef}
    (hdefs : tb.tools_definitions = .ok defs)
    (hnp : ∀ (n : Str) (a : Json) (m : Str), tb.call_tool n a ≠ .panicked m)
    (iteration : Option Nat) (config : Option ChatOptions)
    (hb : ∀ req, ∃ rc calls, backend req = .ok ⟨rc, [MessageContent.toolCalls calls]⟩ ∧
      calls ≠ []) :
    (Agent.run shape backend model history prompt (some tb) iteration config).outcome =
      .error (.maxIterations (iteration.getD DEFAULT_ITERATION)) ∧
    (Agent.run shape backend model history prompt (some tb) iteration config).requests.length
      = iteration.getD DEFAULT_ITERATION := by
  obtain ⟨ho, hr⟩ := c5_loop shape backend model hdefs hnp (effectiveOptions shape config)
    (iteration.getD DEFAULT_ITERATION) hb (iteration.getD DEFAULT_ITERATION) 0
    (history ++ [ChatMessage.user prompt]) [] []
  exact ⟨ho, by simpa using hr⟩

def bkToolsEveryTurn : SentRequest → Except Str ChatResponse := fun _ =>
  .ok ⟨none, [MessageContent.toolCalls
    [{ call_id := "1".data, fn_name := "t".data, fn_arguments := Json.null }]]⟩

/-- C5 counterexample: the claim quantifies over every run whose backend
always requests tools, but a run without a toolbox panics inside the first
iteration (the `todo!` arm) after a single transport request — it neither
makes `n = 2` requests nor returns the iteration-exhaustion error. -/
theorem c5_counterexample :
    (Agent.run stringShape bkToolsEveryTurn "m".data [] "p".data none (some 2)
        none).outcome = .error (.panic (todoNoToolMsg "t".data)) ∧
    (Agent.run stringShape bkToolsEveryTurn "m".data [] "p".data none (some 2)
        none).requests.length = 1 := ⟨rfl, rfl⟩

def tbAlwaysOk : ToolBoxM :=
  { tools_definitions := .ok [], call_tool := fun _ _ => .ok "r".data }

/-- Witness for C5 (amended): bound 2, a toolbox whose calls succeed, a
backend that always requests one tool: exactly 2 requests, then
iteration-exhaustion. -/
theorem c5_witness :
    (Agent.run stringShape bkToolsEveryTurn "m".data [] "p".data (some tbAlwaysOk) (some 2)
        none).outcome = .error (.maxIterations 2) ∧
    (Agent.run stringShape bkToolsEveryTurn "m".data [] "p".data (some tbAlwaysOk) (some 2)
        none).requests.length = 2 :=
  c5_amended stringShape bkToolsEveryTurn "m".data [] "p".data rfl
    (fun _ _ _ hp => CallOutcome.noConfusion hp) (some 2) none
    (fun _ => ⟨none, [{ call_id := "1".data, fn_name := "t".data, fn_arguments := Json.null }],
      rfl, by simp⟩)

/- ============== absorbed tool failures continue the run ================ -/

theorem runIter_next_request {D : Type} (shape : AnswerShape D)
    (backend : SentRequest → Except Str ChatResponse) (model : Str)
    (toolbox : Option ToolBoxM) (opts : ChatOptions) (maxIter : Nat)
    {tOpt : Option (List ToolDef)} (htools : toolsFor toolbox = .ok tOpt)
    (fuel iteration : Nat) (h : List ChatMessage) (a : List D)
    (reqs : List SentRequest) :
    (runIter shape backend model toolbox opts maxIter (fuel + 1) iteration h a
        reqs).requests[reqs.length]? = some (mkRequest model h tOpt opts) := by
  have hlem : ∀ tail : List SentRequest,
      ((reqs ++ [mkRequest model h tOpt opts]) ++ tail)[reqs.length]? =
        some (mkRequest model h tOpt opts) := by
    intro tail
    rw [List.getElem?_append_left (by simp)]
    rw [List.getElem?_append_right (Nat.le_refl _)]
    simp
  rw [runIter_succ _ _ _ _ _ _ _ _ _ _ _ htools]
  rcases hbk : backend (mkRequest model h tOpt opts) with msg | resp
  · simp
  · simp only [hbk]
    rcases hpc : processContents shape toolbox resp.content h a false with ⟨res, h2⟩
    cases res with
    | error e => simp
    | ok p =>
      rcases p with ⟨a2, flag⟩
      cases flag with
      | false => simp
      | true =>
        obtain ⟨_, ⟨rtail, hr3⟩⟩ := runIter_extends shape backend model toolbox opts maxIter
          fuel (iteration + 1) h2 a2 (reqs ++ [mkRequest model h tOpt opts])
        have hgoal : (runIter shape backend model toolbox opts maxIter fuel (iteration + 1)
            h2 a2 (reqs ++ [mkRequest model h tOpt opts])).requests[reqs.length]? =
            some (mkRequest model h tOpt opts) := by
          rw [hr3]
          exact hlem rtail
        exact hgoal

theorem absorbed_failure_second_request {D : Type} (shape : AnswerShape D)
    (backend : SentRequest → Except Str ChatResponse) (model : Str)
    (history : List ChatMessage) (prompt : Str)
    {tb : ToolBoxM} {defs : List ToolDef} (hdefs : tb.tools_definitions = .ok defs)
    {cid nm : Str} {args : Json} {e : ToolError}
    (hcall : tb.call_tool nm args = .err e)
    (iteration : Option Nat) (config : Option ChatOptions) {rc : Option Str}
    (hb : backend (firstRequest shape model history prompt (some defs) config) =
      .ok ⟨rc, [MessageContent.toolCalls [⟨cid, nm, args⟩]]⟩)
    (hiter : 2 ≤ iteration.getD DEFAULT_ITERATION) :
    (Agent.run shape backend model history prompt (some tb) iteration
        config).requests[1]? =
      some (mkRequest model
        (history ++ [ChatMessage.user prompt,
          ChatMessage.toolCalls [⟨cid, nm, args⟩],
          ChatMessage.toolResponse cid e.toMessage])
        (some defs) (effectiveOptions shape config)) := by
  have htools : toolsFor (some tb) = .ok (some defs) := by
    rw [toolsFor, hdefs]
    rfl
  obtain ⟨m, hm⟩ : ∃ m, iteration.getD DEFAULT_ITERATION = (m + 1) + 1 :=
    ⟨iteration.getD DEFAULT_ITERATION - 2, by omega⟩
  rw [Agent.run, hm]
  rw [runIter_succ _ _ _ _ _ _ _ _ _ _ _ htools]
  have hb2 : backend (mkRequest model (history ++ [ChatMessage.user prompt]) (some defs)
      (effectiveOptions shape config)) =
      .ok ⟨rc, [MessageContent.toolCalls [⟨cid, nm, args⟩]]⟩ := hb
  simp only [hb2]
  have hpc : processCalls (some tb) [⟨cid, nm, args⟩]
      ((history ++ [ChatMessage.user prompt]) ++
        [ChatMessage.toolCalls [⟨cid, nm, args⟩]]) false =
      (.ok true, ((history ++ [ChatMessage.user prompt]) ++
        [ChatMessage.toolCalls [⟨cid, nm, args⟩]]) ++
        [ChatMessage.toolResponse cid e.toMessage]) := by
    simp [processCalls, hcall]
  simp only [processContents, hpc]
  rw [if_pos trivial]
  have h2nd := runIter_next_request shape backend model (some tb)
    (effectiveOptions shape config) ((m + 1) + 1) htools m (0 + 1)
    (((history ++ [ChatMessage.user prompt]) ++
      [ChatMessage.toolCalls [⟨cid, nm, args⟩]]) ++
      [ChatMessage.toolResponse cid e.toMessage]) []
    ([] ++ [mkRequest model (history ++ [ChatMessage.user prompt]) (some defs)
      (effectiveOptions shape config)])
  simp only [List.nil_append, List.length_singleton] at h2nd
  simp only [List.nil_append]
  rw [h2nd]
  simp [mkRequest, List.append_assoc]

/-- C2 (amended): a tool call whose dispatch returns a failure is not
returned to the caller: the failure's textual description is appended as a
`ToolCallResult` (`ToolResponse`) message paired with the request's call
id, and the run continues — the second outbound request exists and carries
that message.  This absorption applies to every failure value returned by
the toolbox's `call_tool` (including tool-not-found, see the
counterexample), not only to failures of resolved tools. -/
theorem c2_amended {D : Type} (shape : AnswerShape D)
    (backend : SentRequest → Except Str ChatResponse) (model : Str)
    (history : List ChatMessage) (prompt : Str)
    {tb : ToolBoxM} {defs : List ToolDef} (hdefs : tb.tools_definitions = .ok defs)
    {cid nm : Str} {args : Json} {e : ToolError}
    (hcall : tb.call_tool nm args = .err e)
    (iteration : Option Nat) (config : Option ChatOptions) {rc : Option Str}
    (hb : backend (firstRequest shape model history prompt (some defs) config) =
      .ok ⟨rc, [MessageContent.toolCalls [⟨cid, nm, args⟩]]⟩)
    (hiter : 2 ≤ iteration.getD DEFAULT_ITERATION) :
    (Agent.run shape backend model history prompt (some tb) iteration
        config).requests[1]? =
      some (mkRequest model
        (history ++ [ChatMessage.user prompt,
          ChatMessage.toolCalls [⟨cid, nm, args⟩],
          ChatMessage.toolResponse cid e.toMessage])
        (some defs) (effectiveOptions shape config)) :=
  absorbed_failure_second_request shape backend model history prompt hdefs hcall
    iteration config hb hiter

def bk2 : SentRequest → Except Str ChatResponse := fun req =>
  if req.messages.length == 2 then
    .ok ⟨none, [MessageContent.toolCalls [⟨"c9".data, "tool-3_f".data, Json.null⟩]]⟩
  else .ok ⟨none, [MessageContent.text "fin".data]⟩

/-- C2 counterexample to the exclusivity part ("only this error class is
absorbed"): against the aggregated registry with no providers, the
requested name does not resolve — a tool-NOT-found failure, a different
class — yet its description is absorbed into the conversation as the
tool's result and the run continues to a successful answer. -/
theorem c2_counterexample :
    (Agent.run stringShape bk2 "m".data [ChatMessage.system "s".data] "p".data
        (some (mergeToolBox [])) none none).outcome = .ok (["fin".data], 1) ∧
    (Agent.run stringShape bk2 "m".data [ChatMessage.system "s".data] "p".data
        (some (mergeToolBox [])) none none).history =
      [ChatMessage.system "s".data, ChatMessage.user "p".data,
       ChatMessage.toolCalls [⟨"c9".data, "tool-3_f".data, Json.null⟩],
       ChatMessage.toolResponse "c9".data
         (ToolError.noToolFound "tool-3_f".data).toMessage,
       ChatMessage.assistant "fin".data] := ⟨rfl, rfl⟩

def tbExecFail : ToolBoxM :=
  { tools_definitions := .ok [], call_tool := fun _ _ => .err .executionError }

def bkOneCall : SentRequest → Except Str ChatResponse := fun req =>
  if req.messages.length == 2 then
    .ok ⟨none, [MessageContent.toolCalls [⟨"c1".data, "f".data, Json.null⟩]]⟩
  else .ok ⟨none, [MessageContent.text "ok".data]⟩

/-- Witness for C2 (amended) at a concrete run with an execution failure. -/
theorem c2_witness :
    (Agent.run stringShape bkOneCall "m".data [ChatMessage.system "s".data] "p".data
        (some tbExecFail) none none).requests[1]? =
      some (mkRequest "m".data
        ([ChatMessage.system "s".data] ++ [ChatMessage.user "p".data,
          ChatMessage.toolCalls [⟨"c1".data, "f".data, Json.null⟩],
          ChatMessage.toolResponse "c1".data ToolError.executionError.toMessage])
        (some []) (effectiveOptions stringShape none)) :=
  c2_amended stringShape bkOneCall "m".data [ChatMessage.system "s".data] "p".data
    rfl rfl none none rfl (by decide)

/-- C1 (amended): the two undispatchable-tool-call outcomes the code
actually has.  (a) With no toolbox, the `todo!` arm panics on the first
such request: the run aborts after a single transport request with a
panic — not a returned error value.  (b) With a toolbox in which the name
does not resolve, the resulting `NoToolFound` error is not fatal: its
description is absorbed into the conversation as the tool's result and the
run continues with a second request. -/
theorem c1_amended {D : Type} (shape : AnswerShape D) (model : Str)
    (history : List ChatMessage) (prompt : Str) (iteration : Option Nat)
    (config : Option ChatOptions) :
    (∀ (backend : SentRequest → Except Str ChatResponse) (call : ToolCall)
       (restCalls : List ToolCall) (restContent : List MessageContent) (rc : Option Str),
      backend (firstRequest shape model history prompt none config) =
        .ok ⟨rc, MessageContent.toolCalls (call :: restCalls) :: restContent⟩ →
      1 ≤ iteration.getD DEFAULT_ITERATION →
      (Agent.run shape backend model history prompt none iteration config).outcome =
          .error (.panic (todoNoToolMsg call.fn_name)) ∧
      (Agent.run shape backend model history prompt none iteration
          config).requests.length = 1)
    ∧
    (∀ (backend : SentRequest → Except Str ChatResponse) (tb : ToolBoxM)
       (defs : List ToolDef) (cid nm reqName : Str) (args : Json) (rc : Option Str),
      tb.tools_definitions = .ok defs →
      tb.call_tool reqName args = .err (.noToolFound nm) →
      backend (firstRequest shape model history prompt (some defs) config) =
        .ok ⟨rc, [MessageContent.toolCalls [⟨cid, reqName, args⟩]]⟩ →
      2 ≤ iteration.getD DEFAULT_ITERATION →
      (Agent.run shape backend model history prompt (some tb) iteration
          config).requests[1]? =
        some (mkRequest model
          (history ++ [ChatMessage.user prompt,
            ChatMessage.toolCalls [⟨cid, reqName, args⟩],
            ChatMessage.toolResponse cid (ToolError.noToolFound nm).toMessage])
          (some defs) (effectiveOptions shape config))) := by
  constructor
  · intro backend call restCalls restContent rc hb hiter
    obtain ⟨m, hm⟩ : ∃ m, iteration.getD DEFAULT_ITERATION = m + 1 :=
      ⟨_, (Nat.succ_pred_eq_of_pos hiter).symm⟩
    have hb2 : backend (mkRequest model (history ++ [ChatMessage.user prompt]) none
        (effectiveOptions shape config)) =
        .ok ⟨rc, MessageContent.toolCalls (call :: restCalls) :: restContent⟩ := hb
    constructor
    · rw [Agent.run, hm]
      rw [runIter_succ _ _ _ _ _ _ _ _ _ _ _
        (show toolsFor (none : Option ToolBoxM) = .ok none from rfl)]
      simp [hb2, processContents, processCalls]
    · rw [Agent.run, hm]
      rw [runIter_succ _ _ _ _ _ _ _ _ _ _ _
        (show toolsFor (none : Option ToolBoxM) = .ok none from rfl)]
      simp [hb2, processContents, processCalls]
  · intro backend tb defs cid nm reqName args rc hdefs hcall hb hiter
    exact absorbed_failure_second_request shape backend model history prompt hdefs hcall
      iteration config hb hiter

def bk1 : SentRequest → Except Str ChatResponse := fun req =>
  if req.messages.length == 2 then
    .ok ⟨none, [MessageContent.toolCalls [⟨"c1".data, "tool-0_foo".data, Json.null⟩]]⟩
  else .ok ⟨none, [MessageContent.text "done".data]⟩

/-- C1 counterexample: the model requests `tool-0_foo` against an
aggregated registry with zero providers — an unresolvable name — yet the
run does not abort: the `NoToolFound` description is absorbed as the
tool's result, a second iteration runs (2 requests), and the run returns
success. -/
theorem c1_counterexample :
    (Agent.run stringShape bk1 "m".data [ChatMessage.system "s".data] "p".data
        (some (mergeToolBox [])) none none).outcome = .ok (["done".data], 1) ∧
    (Agent.run stringShape bk1 "m".data [ChatMessage.system "s".data] "p".data
        (some (mergeToolBox [])) none none).requests.length = 2 := ⟨rfl, rfl⟩

def bkC1b : SentRequest → Except Str ChatResponse := fun _ =>
  .ok ⟨none, [MessageContent.toolCalls [⟨"c2".data, "tool-7_g".data, Json.null⟩]]⟩

/-- Witness for C1 (amended): both branches at concrete runs. -/
theorem c1_witness :
    ((Agent.run stringShape bkToolsEveryTurn "m".data [ChatMessage.system "h".data]
        "p".data none (some 3) none).outcome =
          .error (.panic (todoNoToolMsg "t".data)) ∧
     (Agent.run stringShape bkToolsEveryTurn "m".data [ChatMessage.system "h".data]
        "p".data none (some 3) none).requests.length = 1) ∧
    (Agent.run stringShape bkC1b "m".data [] "p".data (some (mergeToolBox [])) none
        none).requests[1]? =
      some (mkRequest "m".data
        ([] ++ [ChatMessage.user "p".data,
          ChatMessage.toolCalls [⟨"c2".data, "tool-7_g".data, Json.null⟩],
          ChatMessage.toolResponse "c2".data
            (ToolError.noToolFound "tool-7_g".data).toMessage])
        (some []) (effectiveOptions stringShape none)) :=
  ⟨(c1_amended stringShape "m".data [ChatMessage.system "h".data] "p".data (some 3)
      none).1 bkToolsEveryTurn ⟨"1".data, "t".data, Json.null⟩ [] [] none rfl (by decide),
   (c1_amended stringShape "m".data [] "p".data none none).2 bkC1b (mergeToolBox []) []
      "c2".data "tool-7_g".data "tool-7_g".data Json.null none rfl rfl rfl (by decide)⟩
